import Mathlib

/-!
Verification of the Librum two-level matching engine.

The definitions below are a shallow embedding of `librum/patterns.py`,
`librum/sections.py` and `librum/files.py`.  Regular-expression pattern
strings from the source are transcribed into `RegularExpression Char`
abstract syntax; Python's `re.match` (prefix matching, with `$` matching
at the end of the subject or just before one final newline) is embedded
as an executable matcher on that syntax.  Stateful Python methods that
mutate `self` and may raise become functions returning the updated state
paired with an optional error, with mutations sequenced exactly as in
the source, so that a raise observed mid-method leaves exactly the
mutations performed before it.
-/

namespace Librum

open RegularExpression

/-- The alphabet of the engine is `Char`; patterns are regular-expression
abstract syntax over it (the transcription of the pattern strings used by
the source). -/
abbrev Rgx := RegularExpression Char

/-- Single-character regex. -/
def rchar (c : Char) : Rgx := RegularExpression.char c

/-- Character class `[...]`: alternation of the characters of `s`. -/
def rcls (s : String) : Rgx :=
  (s.toList.map RegularExpression.char).foldr (· + ·) 0

/-- Postfix `+`: one or more repetitions. -/
def rplus (r : Rgx) : Rgx := r * r.star

/-- Postfix `?`: zero or one occurrence. -/
def ropt (r : Rgx) : Rgx := r + 1

/-- Concatenation of the literal characters of a string. -/
def rstr (s : String) : Rgx :=
  (s.toList.map RegularExpression.char).foldr (· * ·) 1

/-- A pattern as used by the source: a regex plus whether the original
pattern string carried an explicit end anchor `$`.  (`re.match` anchors
the start of every pattern, so a leading `^` needs no representation.) -/
structure Pattern where
  re : Rgx
  anchoredEnd : Bool

/-- Python `re.match(r, s)` for a pattern without an end anchor: some
prefix of `s` matches `r`.  Executable by Brzozowski derivatives. -/
def rePyMatch (r : Rgx) : List Char → Bool
  | [] => r.matchEpsilon
  | c :: cs => r.matchEpsilon || rePyMatch (r.deriv c) cs

/-- Python `re.match` for a transcribed pattern.  For an end-anchored
pattern `^X$`, `$` matches at the end of the subject or just before one
final newline, so the whole subject (or the subject minus one trailing
newline) must match `X`.  Subjects in the source carry at most one
trailing newline, which this model assumes. -/
def reMatch (p : Pattern) (s : List Char) : Bool :=
  if p.anchoredEnd then
    p.re.rmatch s ||
      (if s.getLast? = some '\n' then p.re.rmatch s.dropLast else false)
  else
    rePyMatch p.re s

/-! ### Pattern constants from `librum/patterns.py` -/

/-- `SEPARATOR = ""`: the trimmed blank line. -/
def SEPARATOR : String := ""

/-- `SEPARATOR_RAW = "\n"`: the raw blank line. -/
def SEPARATOR_RAW : String := "\n"

/-- `RE_SEPARATOR_PATTERN = "^$"`. -/
def reSeparatorPattern : Pattern := ⟨1, true⟩

/-- Lowercase letters `[a-z]`. -/
def lowerCls : Rgx := rcls "abcdefghijklmnopqrstuvwxyz"

/-- Letters `[a-zA-Z]`. -/
def alphaCls : Rgx :=
  rcls "abcdefghijklmnopqrstuvwxyzABCDEFGHIJKLMNOPQRSTUVWXYZ"

/-- `RE_TAG_PATTERN = ((?:(?:[a-z]+[_]\x7b1\x7d)+[a-zA-Z]+)|(?:[a-z]+))`
from the source: either one or more runs of lowercase letters each
followed by an underscore and then a run of letters of either case, or a
single run of lowercase letters. -/
def reTagRgx : Rgx :=
  rplus (rplus lowerCls * rchar '_') * rplus alphaCls + rplus lowerCls

/-- Inner regex of `RE_TAGS_PATTERN`: a backtick, one or more bracketed
single tags, and a closing backtick. -/
def reTagsRgx : Rgx :=
  rchar '`' * rplus (rchar '[' * reTagRgx * rchar ']') * rchar '`'

/-- `RE_TAGS_PATTERN` is anchored on both sides. -/
def reTagsPattern : Pattern := ⟨reTagsRgx, true⟩

/-! ### The tags-line grammar as the specification words it

The specification states the tags line as the anchored regex
`(?:\[TAG(?:, ?TAG)*\])+` between backticks with `TAG = ([a-z]+_)*[a-z]+`:
each bracket group holds one or more comma-separated lowercase tags. -/

/-- Specification tag grammar `([a-z]+_)*[a-z]+`. -/
def specTagRgx : Rgx := (rplus lowerCls * rchar '_').star * rplus lowerCls

/-- Specification tags-line grammar:
backtick, then one or more groups `[TAG(, ?TAG)*]`, then backtick. -/
def specTagsRgx : Rgx :=
  rchar '`' *
    rplus (rchar '[' *
      (specTagRgx * (rchar ',' * ropt (rchar ' ') * specTagRgx).star) *
      rchar ']') *
    rchar '`'

/-! ### Lines (`sections.py`, class `Line`)

Construction strips trailing whitespace; a negative index raises, so the
index is modelled as `Nat`. -/

structure Line where
  index : Nat
  text : String
deriving DecidableEq

/-- Python `str.rstrip()`: drop trailing whitespace characters. -/
def rstrip (s : String) : String :=
  ⟨(s.toList.reverse.dropWhile Char.isWhitespace).reverse⟩

/-- `Line.__init__`: the stored text is the argument with trailing
whitespace stripped. -/
def Line.make (index : Nat) (text : String) : Line :=
  ⟨index, rstrip text⟩

/-! ### Line definitions (`sections.py`, class `LineDefinition`) -/

structure LineDefinition where
  pattern : Pattern
  optional : Bool := false
  ordered : Bool := true
  count : Int := 1

instance : Inhabited LineDefinition := ⟨⟨⟨0, false⟩, false, true, 1⟩⟩

/-- Errors raised by the `Section` engine (`SectionError`), carrying the
data interpolated into the corresponding Python message. -/
inductive SectionError where
  | indexErr
  | headerOptional
  | headerUnordered
  | zeroCount (index : Nat)
  | unorderedNoSiblings (index : Nat)
  | emptyEndPattern
  | endPatternNoEffect
  | alreadyCompleted (name : String)
  | invalidLine (name : String) (line : Line) (lastConsumed : Line)
      (expectedPatterns : List Pattern)
  | endBeforeCompleted (name : String) (lastConsumed : Line)

/-- The class-level data of a concrete `Section` subclass after
`__init_subclass__` has run: its name, its `LINE_DEFINITIONS` and its
(possibly defaulted) `END_PATTERN`. -/
structure SectionClass where
  name : String
  lineDefinitions : List LineDefinition
  endPattern : Option Pattern

/-! ### `Section.__init_subclass__` -/

/-- The per-definition validation loop of `__init_subclass__`: rejects a
zero count, and an unordered definition whose previous sibling is ordered
while the next sibling is ordered or absent.  (Python reads
`LINE_DEFINITIONS[index - 1]`; `index = 0` cannot reach that read because
the header-ordered check precedes the loop, so `getD (i - 1)` is
faithful on every reachable input.) -/
def checkDefinitionsLoop (defs : List LineDefinition) :
    Nat → List LineDefinition → Option SectionError
  | _, [] => none
  | i, d :: rest =>
    if d.count = 0 then some (.zeroCount i)
    else if d.ordered = false then
      let previous := defs.getD (i - 1) default
      let bad := previous.ordered &&
        (match defs.get? (i + 1) with
         | some nx => nx.ordered
         | none => true)
      if bad then some (.unorderedNoSiblings i)
      else checkDefinitionsLoop defs (i + 1) rest
    else checkDefinitionsLoop defs (i + 1) rest

/-- The transcription of the Python check `END_PATTERN == ""`: the empty
pattern string transcribes to the un-anchored epsilon pattern. -/
def isEmptyStringPattern : Option Pattern → Bool
  | some p =>
    (match p.re with
     | RegularExpression.epsilon => true
     | _ => false) && !p.anchoredEnd
  | none => false

/-- The `END_PATTERN` defaulting step of `__init_subclass__`: the
blank-line regex when the last definition is unlimited and its pattern
does not match `SEPARATOR_RAW`, the declared pattern otherwise. -/
def defaultedEndPattern (last : LineDefinition)
    (declaredEnd : Option Pattern) : Option Pattern :=
  if last.count == -1 && !(reMatch last.pattern SEPARATOR_RAW.toList)
  then some reSeparatorPattern else declaredEnd

/-- `Section.__init_subclass__` for a concrete subclass declaring `defs`
and `declaredEnd`: runs the validations in source order, then defaults
`END_PATTERN` to the blank-line regex when the last definition is
unlimited and its pattern does not match `SEPARATOR_RAW`. -/
def initSubclass (name : String) (defs : List LineDefinition)
    (declaredEnd : Option Pattern) : Except SectionError SectionClass :=
  match defs with
  | [] => .error .indexErr
  | header :: _ =>
    if header.optional then .error .headerOptional
    else if header.ordered = false then .error .headerUnordered
    else
      match checkDefinitionsLoop defs 0 defs with
      | some e => .error e
      | none =>
        if isEmptyStringPattern declaredEnd then .error .emptyEndPattern
        else
          let last := defs.getLastD default
          let endPat := defaultedEndPattern last declaredEnd
          if endPat.isSome && !(last.optional || last.count == -1) then
            .error .endPatternNoEffect
          else .ok ⟨name, defs, endPat⟩

/-! ### Section instances

The engine identifies a line definition by its position in
`LINE_DEFINITIONS` (Python identifies it by value through `list.index`,
which coincides with the position whenever the list has no duplicate
equal entries). -/

structure SectionState where
  cls : SectionClass
  startingLineIndex : Nat
  endingLineIndex : Option Nat
  lastConsumedLine : Line
  expectedDefinitions : List Nat
  definitionCounts : List Nat

/-- `defaultdict(Count)` read: a missing key counts as zero. -/
def getCount (counts : List Nat) (i : Nat) : Nat := counts.getD i 0

/-- Increment the counter of definition `i`. -/
def incCount (counts : List Nat) (i : Nat) : List Nat :=
  if i < counts.length then counts.set i (counts.getD i 0 + 1)
  else counts ++ List.replicate (i - counts.length) 0 ++ [1]

def SectionState.name (s : SectionState) : String := s.cls.name

/-- `completed` is truth of `ending_line_index is not None`. -/
def SectionState.completed (s : SectionState) : Bool :=
  s.endingLineIndex.isSome

/-- `number_of_lines = last_consumed_line.index - starting_line_index + 1`. -/
def SectionState.numberOfLines (s : SectionState) : Nat :=
  s.lastConsumedLine.index - s.startingLineIndex + 1

/-- The definition at index `i` of the section's `LINE_DEFINITIONS`. -/
def defAt (s : SectionState) (i : Nat) : LineDefinition :=
  s.cls.lineDefinitions.getD i default

/-- `Section.__can_definition_consume_more`. -/
def canDefinitionConsumeMore (d : LineDefinition) (n : Nat) : Bool :=
  if d.count = -1 then true else decide ((n : Int) < d.count)

/-- `Section.__is_definition_consumed`. -/
def isDefinitionConsumed (d : LineDefinition) (n : Nat) : Bool :=
  if d.optional && n == 0 then true
  else decide ((d.count = -1 ∧ 0 < n) ∨ d.count = (n : Int))

/-- `Section.has_consumed_all_definitions`. -/
def hasConsumedAll (s : SectionState) : Bool :=
  (List.range s.cls.lineDefinitions.length).all fun i =>
    isDefinitionConsumed (defAt s i) (getCount s.definitionCounts i)

/-- The leftward walk of `__update_expected_definitions`: from an
unordered matched definition, decrement the index while the definition
there is unordered.  (The header of a validated class is ordered, so the
walk never falls off the front.) -/
def snapLeftSection (defs : List LineDefinition) : Nat → Nat
  | 0 => 0
  | i + 1 =>
    if (defs.getD (i + 1) default).ordered then i + 1
    else snapLeftSection defs i

/-- The rightward scan of `__update_expected_definitions` over the
definition indices from the walk start, threading
`has_unconsumed_unordered`. -/
def expectedScan (defs : List LineDefinition) (counts : List Nat) :
    List Nat → Bool → List Nat
  | [], _ => []
  | i :: rest, huo =>
    let d := defs.getD i default
    let n := getCount counts i
    if d.ordered then
      if huo then []
      else
        (if canDefinitionConsumeMore d n then [i] else []) ++
          (if !(isDefinitionConsumed d n) then []
           else expectedScan defs counts rest huo)
    else
      (if canDefinitionConsumeMore d n then [i] else []) ++
        expectedScan defs counts rest (huo || !(isDefinitionConsumed d n))

/-- `Section.__update_expected_definitions` after a match of definition
`i`: walk left if the matched definition is unordered, then scan right. -/
def selectExpectedSection (defs : List LineDefinition) (counts : List Nat)
    (i : Nat) : List Nat :=
  let start := if (defs.getD i default).ordered then i
               else snapLeftSection defs i
  expectedScan defs counts ((List.range defs.length).drop start) false

/-- `Section.__match_end_pattern`. -/
def matchEndPattern (s : SectionState) (line : Line) : Bool :=
  if !(hasConsumedAll s) then false
  else
    match s.cls.endPattern with
    | some p => reMatch p line.text.toList
    | none => false

/-- `Section.__on_complete`: record the ending line index (the
`on_complete` user hook touches no engine state). -/
def onCompleteSection (s : SectionState) (endingLine : Line) : SectionState :=
  { s with endingLineIndex := some endingLine.index }

/-- The matching loop of `consume_line`: the first expected definition
whose pattern matches the line. -/
def findMatch (s : SectionState) (line : Line) : Option Nat :=
  s.expectedDefinitions.find? fun i =>
    reMatch (defAt s i).pattern line.text.toList

/-- `Section.consume_line`, with mutations sequenced as in the source; a
raise returns the state as mutated up to the raise point. -/
def consumeLine (s : SectionState) (line : Line) :
    SectionState × Option SectionError :=
  if s.completed then (s, some (.alreadyCompleted s.name))
  else if s.cls.endPattern.isSome && matchEndPattern s line then
    (onCompleteSection s s.lastConsumedLine, none)
  else
    match findMatch s line with
    | none =>
      (s, some (.invalidLine s.name line s.lastConsumedLine
        (s.expectedDefinitions.map fun i => (defAt s i).pattern)))
    | some i =>
      let s1 := { s with lastConsumedLine := line }
      let s2 := { s1 with definitionCounts := incCount s1.definitionCounts i }
      let s3 := { s2 with expectedDefinitions :=
        selectExpectedSection s2.cls.lineDefinitions s2.definitionCounts i }
      if s3.expectedDefinitions.all
          (fun j => !(canDefinitionConsumeMore (defAt s3 j)
            (getCount s3.definitionCounts j))) then
        (onCompleteSection s3 line, none)
      else (s3, none)

/-- `Section.on_end`. -/
def onEnd (s : SectionState) : SectionState × Option SectionError :=
  if !(hasConsumedAll s) then
    (s, some (.endBeforeCompleted s.name s.lastConsumedLine))
  else (onCompleteSection s s.lastConsumedLine, none)

/-- `Section.__init__`: initialise the instance state and consume the
starting line; a raise aborts construction. -/
def sectionOpen (cls : SectionClass) (line : Line) :
    Except SectionError SectionState :=
  let s0 : SectionState :=
    { cls := cls, startingLineIndex := line.index, endingLineIndex := none,
      lastConsumedLine := line, expectedDefinitions := [0],
      definitionCounts := [] }
  match consumeLine s0 line with
  | (s, none) => .ok s
  | (_, some e) => .error e

/-! ### Section definitions (`sections.py`, `SectionPriority` and
`SectionDefinition`)

A grammar is a tree of section definitions.  A definition is identified
by its path of child indices from the root list — the counterpart of the
source's identity-based `identifier` chain root→self. -/

inductive SectionPriority where
  | interrupting
  | lower
  | default
  | higher
deriving DecidableEq

/-- The `IntEnum` value of a priority. -/
def SectionPriority.val : SectionPriority → Nat
  | .interrupting => 0
  | .lower => 1
  | .default => 2
  | .higher => 3

/-- The scalar attributes of a `SectionDefinition`. -/
structure SDefAttrs where
  optional : Bool := false
  ordered : Bool := true
  count : Int := 1
  priority : SectionPriority := .default
  separatorCount : Int := 1

/-- A `SectionDefinition` tree node: attributes, the section class it
instantiates, and its subsections.  The parent pointer of the source is
recovered from paths. -/
inductive SDTree where
  | node (attrs : SDefAttrs) (cls : SectionClass) (subsections : List SDTree)

def SDTree.attrs : SDTree → SDefAttrs
  | .node a _ _ => a

def SDTree.cls : SDTree → SectionClass
  | .node _ c _ => c

def SDTree.subs : SDTree → List SDTree
  | .node _ _ s => s

instance : Inhabited SDTree := ⟨.node {} ⟨"", [], none⟩ []⟩

/-- The node of a grammar at a path of child indices. -/
def fetch (g : List SDTree) : List Nat → Option SDTree
  | [] => none
  | [i] => g.get? i
  | i :: rest =>
    match g.get? i with
    | some t => fetch t.subs rest
    | none => none

/-- The sibling list containing the node at `path`: the root list for a
root definition, the parent's subsections otherwise. -/
def siblingsAt (g : List SDTree) (path : List Nat) : List SDTree :=
  match path.dropLast with
  | [] => g
  | ps =>
    match fetch g ps with
    | some t => t.subs
    | none => []

/-- File-level counters: `__definition_counts`, keyed by definition
identifier (modelled as the definition's path). -/
abbrev PathCounts := List (List Nat × Nat)

/-- `defaultdict(int)` read by identifier. -/
def getPathCount (c : PathCounts) (p : List Nat) : Nat :=
  match c.find? (fun kv => kv.1 == p) with
  | some kv => kv.2
  | none => 0

/-- Increment the counter of the definition at `p`. -/
def incPathCount (c : PathCounts) (p : List Nat) : PathCounts :=
  if (c.find? (fun kv => kv.1 == p)).isSome then
    c.map fun kv => if kv.1 == p then (kv.1, kv.2 + 1) else kv
  else c ++ [(p, 1)]

/-- `del __definition_counts[identifier]` (used when clearing subsection
counters). -/
def delPathCount (c : PathCounts) (p : List Nat) : PathCounts :=
  c.filter fun kv => !(kv.1 == p)

/-- `File.__is_definition_consumed`. -/
def fileIsDefinitionConsumed (counts : PathCounts) (path : List Nat)
    (attrs : SDefAttrs) : Bool :=
  let n := getPathCount counts path
  if attrs.optional && n == 0 then true
  else decide ((attrs.count = -1 ∧ 0 < n) ∨ attrs.count = (n : Int))

/-- `File.__can_definition_consume_more`. -/
def fileCanDefinitionConsumeMore (counts : PathCounts) (path : List Nat)
    (attrs : SDefAttrs) : Bool :=
  if attrs.count = -1 then true
  else decide ((getPathCount counts path : Int) < attrs.count)

/-! ### File-level errors (`FileError`), carrying the data interpolated
into the corresponding Python message. -/

inductive FileError where
  | fileDoesNotExist
  | invalidTags (tagsLine : String)
  | invalidTag (tag : String) (clsName : String)
  | cannotMatchAbstract
  | couldNotMatchSection (name : String) (errors : List SectionError)
  | invalidSeparatorCount (name : String) (sectionName : String)
      (line : Nat)
  | endOfFileIncomplete (name : String)
  | indexError
  | sectionRaised (e : SectionError)

/-- The tags-line validation step of `File.match`: the second line of
the document, stripped of trailing newlines, must match
`RE_TAGS_PATTERN`; otherwise `File.match` raises the invalid-tags
error. -/
def checkTagsLine (tagsLine : String) : Option FileError :=
  if reMatch reTagsPattern tagsLine.toList then none
  else some (.invalidTags tagsLine)

/-! ### `File.__select_expected_definitions`

The returned candidate list pairs each candidate definition's path with
its tree node. -/

/-- The priority value of a candidate. -/
def prioOf (x : List Nat × SDTree) : Nat := x.2.attrs.priority.val

/-- Insertion for `sorted(key=priority, reverse=True)`: CPython's sort
is stable, so an element goes after every element of strictly higher
priority and before the first of equal or lower priority. -/
def insertByPriority (x : List Nat × SDTree) :
    List (List Nat × SDTree) → List (List Nat × SDTree)
  | [] => [x]
  | y :: ys =>
    if prioOf x < prioOf y then y :: insertByPriority x ys
    else x :: y :: ys

/-- `sorted(expected_definitions, key=priority, reverse=True)`. -/
def sortByPriorityDesc :
    List (List Nat × SDTree) → List (List Nat × SDTree)
  | [] => []
  | x :: xs => insertByPriority x (sortByPriorityDesc xs)

/-- The leftward walk over unordered siblings (file level): decrement
while the definition there is unordered and the index is positive. -/
def snapLeftFile (sibs : List SDTree) : Nat → Nat
  | 0 => 0
  | i + 1 =>
    if (sibs.getD (i + 1) default).attrs.ordered then i + 1
    else snapLeftFile sibs i

/-- Pair every child of a node with its path. -/
def childPaths (parentPath : List Nat) (ts : List SDTree) :
    List (List Nat × SDTree) :=
  (List.range ts.length).map fun j => (parentPath ++ [j], ts.getD j default)

/-- The candidate loop of `__select_expected_definitions`, threading
`has_unconsumed_unordered`; at the last element, when the definition has
a parent and no unordered definition is still unconsumed, the
already-computed upward extension `ext` is appended. -/
def scanFile (counts : PathCounts) (ext : List (List Nat × SDTree)) :
    List (List Nat × SDTree) → Bool → List (List Nat × SDTree)
  | [], _ => []
  | (p, t) :: rest, huo =>
    let a := t.attrs
    let canMore := fileCanDefinitionConsumeMore counts p a
    let consumed := fileIsDefinitionConsumed counts p a
    if a.ordered then
      if huo then []
      else
        (if canMore then [(p, t)] else []) ++
          (if !consumed then []
           else
             (if rest.isEmpty && decide (2 ≤ p.length) && !huo then ext
              else []) ++ scanFile counts ext rest huo)
    else
      let huo' := huo || !consumed
      (if canMore then [(p, t)] else []) ++
        (if rest.isEmpty && decide (2 ≤ p.length) && !huo' then ext
         else []) ++ scanFile counts ext rest huo'

/-- `File.__select_expected_definitions` before its final sort.  From a
definition with subsections (not selecting upwards) the candidates are
its children; otherwise they are the definition's siblings from the
(possibly unordered-snapped) index on.  The upward extension recurses on
the parent with `selecting_upwards`, returning a sorted sublist exactly
as the source's recursive call does.  A recursive call either keeps the
path and switches to `selecting_upwards`, or shortens the path by one
while staying upwards, so the recursion depth is at most the path
length plus one and the fuel of the wrapper below is never exhausted. -/
def selectExpectedFileAux (g : List SDTree) (counts : PathCounts) :
    Nat → List Nat → Bool → List (List Nat × SDTree)
  | 0, _, _ => []
  | fuel + 1, path, up =>
    let t := (fetch g path).getD default
    if up || t.subs.isEmpty then
      let sibs := siblingsAt g path
      let i0 := path.getLastD 0
      let start := if t.attrs.ordered then i0 else snapLeftFile sibs i0
      let possible := (childPaths path.dropLast sibs).drop start
      if path.dropLast.isEmpty then scanFile counts [] possible false
      else
        scanFile counts
          (sortByPriorityDesc
            (selectExpectedFileAux g counts fuel path.dropLast true))
          possible false
    else
      let possible := childPaths path t.subs
      if path.isEmpty then scanFile counts [] possible false
      else
        scanFile counts
          (sortByPriorityDesc
            (selectExpectedFileAux g counts fuel path true))
          possible false

/-- The unsorted candidate list of `__select_expected_definitions`. -/
def selectExpectedFileRaw (g : List SDTree) (counts : PathCounts)
    (path : List Nat) (up : Bool) : List (List Nat × SDTree) :=
  selectExpectedFileAux g counts (path.length + 2) path up

/-- `File.__select_expected_definitions`: the scanned candidates sorted
by priority descending (stable). -/
def selectExpectedFile (g : List SDTree) (counts : PathCounts)
    (path : List Nat) (up : Bool) : List (List Nat × SDTree) :=
  sortByPriorityDesc (selectExpectedFileRaw g counts path up)

/-- `File.__match_definition`: try each candidate in expected order; the
first whose section class constructs on the line wins; constructor
errors are collected. -/
def matchDefinition (expected : List (List Nat × SDTree)) (line : Line) :
    Option (List Nat × SDTree × SectionState) × List SectionError :=
  match expected with
  | [] => (none, [])
  | (p, t) :: rest =>
    match sectionOpen t.cls line with
    | .ok s => (some (p, t, s), [])
    | .error e =>
      let r := matchDefinition rest line
      (r.1, e :: r.2)

/-! ### Python sequence indexing -/

/-- Clamp one bound of a Python slice `l[a:b]`: negative indices count
from the end, out-of-range bounds are clamped. -/
def pySliceBound (len : Nat) (i : Int) : Nat :=
  if i < 0 then ((len : Int) + i).toNat else min i.toNat len

/-- Python slicing `l[a:b]`. -/
def pySlice (l : List String) (a b : Int) : List String :=
  let s := pySliceBound l.length a
  let e := pySliceBound l.length b
  (l.drop s).take (e - s)

/-- Python `l[i]`: a negative index counts from the end; an index out of
range on either side is an `IndexError`, modelled as `none`. -/
def pyGet (l : List String) (i : Int) : Option String :=
  if 0 ≤ i then l.get? i.toNat
  else if 0 ≤ (l.length : Int) + i then l.get? ((l.length : Int) + i).toNat
  else none

/-- `File.__validate_separators`: the `separator_count` raw lines
immediately before the new section's starting line must all be the raw
blank line and the slice must be non-empty (`set(...) == \x7b"\n"\x7d`),
and the raw line just before that slice (Python indexing, wrapping
around for a negative index) must not be blank. -/
def validateSeparators (name : String) (sectionName : String)
    (startingLineIndex : Nat) (separatorCount : Int)
    (rawLines : List String) : Option FileError :=
  let toIdx : Int := startingLineIndex
  let fromIdx : Int := toIdx - separatorCount
  let gap := pySlice rawLines fromIdx toIdx
  if gap.isEmpty || gap.any (fun s => !(s == SEPARATOR_RAW)) then
    some (.invalidSeparatorCount name sectionName startingLineIndex)
  else
    match pyGet rawLines (fromIdx - 1) with
    | none => some .indexError
    | some v =>
      if v == SEPARATOR_RAW then
        some (.invalidSeparatorCount name sectionName startingLineIndex)
      else none

/-- The separator condition as the claim states it (for comparison with
the source): exactly `separatorCount` blank raw lines strictly between
the previous section's last line and the new section's first line, and
the raw line immediately before that run — the previous section's last
line itself when the run is empty — is not blank. -/
def specSeparatorOk (rawLines : List String)
    (prevLastIdx newStartIdx : Nat) (separatorCount : Int) : Prop :=
  ((newStartIdx : Int) - (prevLastIdx : Int) - 1 = separatorCount) ∧
  (∀ j, prevLastIdx < j → j < newStartIdx →
    rawLines.getD j "" = SEPARATOR_RAW) ∧
  rawLines.getD prevLastIdx "" ≠ SEPARATOR_RAW

/-! ### The `File` parse loop (`files.py`)

`SectionInfo` wraps an open section instance; the `File` state carries
the grammar, the identifier-keyed counters, the expected definitions,
the currently open section and the trace of fired callbacks
(`Section.on_end` forced closes and `File.on_match` notifications). -/

structure SectionInfo where
  sec : SectionState
  defPath : List Nat
  defNode : SDTree
  hasUpdatedCount : Bool := false
  hasBeenCompleted : Bool := false

instance : Inhabited SectionInfo :=
  ⟨⟨⟨"", [], none⟩, 0, none, ⟨0, ""⟩, [], []⟩, [], default, false, false⟩

/-- `SectionInfo.can_interrupt`: an INTERRUPTING candidate may replace
the open section only once the open section has been completed. -/
def SectionInfo.canInterrupt (self other : SectionInfo) : Bool :=
  if self.defNode.attrs.priority == SectionPriority.interrupting &&
      !other.hasBeenCompleted then false
  else true

/-- Callback events observable from the parse loop. -/
inductive FEvent where
  | sectionEnd (name : String)
  | sectionMatch (name : String)
deriving DecidableEq

structure FileState where
  name : String
  grammar : List SDTree
  counts : PathCounts
  expected : List (List Nat × SDTree)
  current : Option SectionInfo
  events : List FEvent

/-- `File.__update_count`: bump the identifier-keyed counter at most
once per section instance. -/
def fileUpdateCount (fs : FileState) (si : SectionInfo) :
    FileState × SectionInfo :=
  if !si.hasUpdatedCount then
    ({ fs with counts := incPathCount fs.counts si.defPath },
     { si with hasUpdatedCount := true })
  else (fs, si)

/-- `File.__on_match`: update the counter, mark the info completed,
fire the user `on_match` callback. -/
def fileOnMatch (fs : FileState) (si : SectionInfo) :
    FileState × SectionInfo :=
  let r := fileUpdateCount fs si
  let si2 := { r.2 with hasBeenCompleted := true }
  ({ r.1 with events := r.1.events ++ [FEvent.sectionMatch si2.sec.name] },
   si2)

/-- `File.__clear_subsections_count`: drop the counters of the direct
subsections of a newly matched definition. -/
def clearSubsectionsCount (fs : FileState) (si : SectionInfo) :
    FileState :=
  let newCounts := (List.range si.defNode.subs.length).foldl
    (fun c j => delPathCount c (si.defPath ++ [j])) fs.counts
  { fs with counts := newCounts }

/-- `File.__update_expected_definitions`: recompute the expected
definitions from the matched definition (or the first root definition
at start). -/
def fileUpdateExpected (fs : FileState) (matchedPath : Option (List Nat)) :
    FileState :=
  { fs with expected :=
      selectExpectedFile fs.grammar fs.counts (matchedPath.getD [0]) false }

/-- The tail of the line loop when no accepted new section exists:
swallow a blank separator line, otherwise fail with the collected
per-candidate errors. -/
def sepOrFail (fs : FileState) (line : Line) (errs : List SectionError) :
    FileState × Option FileError :=
  if line.text == SEPARATOR then (fs, none)
  else (fs, some (.couldNotMatchSection fs.name errs))

/-- The completion check closing the consume branch: with the (possibly
count-updated) info installed as current, fire `on_match` when the
section has completed. -/
def finishConsume (fs : FileState) (si : SectionInfo) :
    FileState × Option FileError :=
  let fs2 := { fs with current := some si }
  if si.sec.completed then
    let fsb := fileOnMatch fs2 si
    ({ fsb.1 with current := some fsb.2 }, none)
  else (fs2, none)

/-- Forwarding a line to the open, not-yet-completed section: consume
it, and if the section has just consumed all its definitions bump the
outer counter (once) and recompute the expected definitions; fire
`on_match` if the section completed. -/
def consumeBranch (fs : FileState) (si : SectionInfo) (line : Line) :
    FileState × Option FileError :=
  let r := consumeLine si.sec line
  let si1 := { si with sec := r.1 }
  let fs1 := { fs with current := some si1 }
  match r.2 with
  | some e => (fs1, some (.sectionRaised e))
  | none =>
    if !si1.hasUpdatedCount && hasConsumedAll si1.sec then
      let fsa := fileUpdateCount fs1 si1
      finishConsume (fileUpdateExpected fsa.1 (some fsa.2.defPath)) fsa.2
    else finishConsume fs1 si1

/-- The `elif` chain of the line loop: forward the line to the open,
not-yet-completed section; otherwise treat the line as a separator or
fail. -/
def stepRest (fs : FileState) (line : Line) (errs : List SectionError) :
    FileState × Option FileError :=
  match fs.current with
  | some si =>
    if !si.sec.completed then consumeBranch fs si line
    else sepOrFail fs line errs
  | none => sepOrFail fs line errs

/-- Installing an accepted new section: make it current, fire `on_match`
if it is already completed (one-line section), clear subsection
counters when it has subsections, recompute the expected
definitions. -/
def installNew (fs : FileState) (mi : SectionInfo) :
    FileState × Option FileError :=
  let fs1 := { fs with current := some mi }
  let fsi2 :=
    if mi.sec.completed then fileOnMatch fs1 mi else (fs1, mi)
  let fs2 := { fsi2.1 with current := some fsi2.2 }
  let fs3 :=
    if !fsi2.2.defNode.subs.isEmpty then clearSubsectionsCount fs2 fsi2.2
    else fs2
  (fileUpdateExpected fs3 (some fsi2.2.defPath), none)

/-- Accepting a new section: force-close a still-open previous section
through `on_end` (firing its `on_match` pipeline), validate the
separator gap before the new section, then install it. -/
def acceptNewSection (fs : FileState) (mi : SectionInfo)
    (rawLines : List String) : FileState × Option FileError :=
  match fs.current with
  | some si =>
    if !si.sec.completed then
      let r := onEnd si.sec
      let si1 := { si with sec := r.1 }
      let ev1 := fs.events ++ [FEvent.sectionEnd si1.sec.name]
      let fs1 := { fs with current := some si1, events := ev1 }
      match r.2 with
      | some e => (fs1, some (.sectionRaised e))
      | none =>
        let fsb := fileOnMatch fs1 si1
        let fs2 := { fsb.1 with current := some fsb.2 }
        match validateSeparators fs2.name mi.sec.name
            mi.sec.startingLineIndex mi.defNode.attrs.separatorCount
            rawLines with
        | some e => (fs2, some e)
        | none => installNew fs2 mi
    else
      match validateSeparators fs.name mi.sec.name
          mi.sec.startingLineIndex mi.defNode.attrs.separatorCount
          rawLines with
      | some e => (fs, some e)
      | none => installNew fs mi
  | none => installNew fs mi

/-- One iteration of the `__parse_sections` line loop. -/
def parseStep (fs : FileState) (rawLines : List String) (line : Line) :
    FileState × Option FileError :=
  let m := matchDefinition fs.expected line
  match m.1 with
  | some (p, t, s) =>
    let mi : SectionInfo := { sec := s, defPath := p, defNode := t }
    if (match fs.current with
        | some si => mi.canInterrupt si
        | none => true) then
      acceptNewSection fs mi rawLines
    else stepRest fs line m.2
  | none => stepRest fs line m.2

/-! ### Fixtures for the priority claims -/

/-- A one-line section class whose header pattern is the prefix `# `. -/
def fixGenericCls : SectionClass :=
  (initSubclass "GenericSection" [{ pattern := ⟨rstr "# ", false⟩ }] none
    ).toOption.getD ⟨"", [], none⟩

/-- A one-line section class whose header pattern is `# Specific`. -/
def fixSpecificCls : SectionClass :=
  (initSubclass "SpecificSection"
    [{ pattern := ⟨rstr "# Specific", false⟩ }] none
    ).toOption.getD ⟨"", [], none⟩

/-- A repeatable optional generic definition with default priority. -/
def gfixGenericNode : SDTree :=
  .node { optional := true, count := -1 } fixGenericCls []

/-- A specific definition with `HIGHER` priority. -/
def gfixSpecificNode : SDTree :=
  .node { priority := .higher } fixSpecificCls []

/-- The two-definition grammar of the higher-priority scenario. -/
def gfixPrio : List SDTree := [gfixGenericNode, gfixSpecificNode]

/-- The line `# Specific`, matched by both candidates. -/
def fixPrioLine : Line := Line.make 4 "# Specific"

/-- An optional unlimited line definition with the epsilon pattern. -/
def fixOptUnlimitedDef : LineDefinition :=
  { pattern := ⟨1, false⟩, optional := true, count := -1 }

/-- Optional unlimited attributes at the file level. -/
def fixOptUnlimitedAttrs : SDefAttrs := { optional := true, count := -1 }

/-! ### Fixtures for the interruption claim -/

/-- A section whose header is `# Overlap` and whose unlimited body
pattern matches every line (so it absorbs following lines and never
receives a defaulted `END_PATTERN`). -/
def fixOverlapCls : SectionClass :=
  (initSubclass "OverlappingSection"
    [{ pattern := ⟨rstr "# Overlap", false⟩ },
     { pattern := ⟨rstr "", false⟩, count := -1 }] none
    ).toOption.getD ⟨"", [], none⟩

/-- A one-line section with header `# Interrupt`. -/
def fixIntCls : SectionClass :=
  (initSubclass "InterruptingSection"
    [{ pattern := ⟨rstr "# Interrupt", false⟩ }] none
    ).toOption.getD ⟨"", [], none⟩

/-- The INTERRUPTING-priority definition of the interrupting section. -/
def fixIntNode : SDTree := .node { priority := .interrupting } fixIntCls []

/-- Grammar: the overlapping section, then the interrupting one. -/
def fixIntGram : List SDTree := [.node {} fixOverlapCls [], fixIntNode]

/-- The raw document of the interruption scenario. -/
def fixIntRaw : List String := ["# Overlap\n", "x\n", "# Interrupt\n"]

/-- Parse state before any line. -/
def fixIntFs0 : FileState :=
  { name := "TestFile", grammar := fixIntGram, counts := [],
    expected := selectExpectedFile fixIntGram [] [0] false,
    current := none, events := [] }

/-- After the overlap header: the overlapping section is open. -/
def fixIntFs1 : FileState :=
  (parseStep fixIntFs0 fixIntRaw (Line.make 0 "# Overlap")).1

/-- After one body line: the open section has consumed all definitions
but is not completed, and the interrupting definition is expected. -/
def fixIntFs2 : FileState :=
  (parseStep fixIntFs1 fixIntRaw (Line.make 1 "x")).1

/-- The line matching the interrupting candidate. -/
def fixIntLine : Line := Line.make 2 "# Interrupt"

/-- The open section's info inside `fixIntFs2`. -/
def fixIntSi : SectionInfo := fixIntFs2.current.getD default

/-- The interrupting section instance as constructed on `fixIntLine`. -/
def fixIntOpenState : SectionState :=
  (sectionOpen fixIntCls fixIntLine).toOption.getD
    ⟨⟨"", [], none⟩, 0, none, ⟨0, ""⟩, [], []⟩

/-! ### Concrete fixtures

Small concrete section classes mirroring the shapes used by the
repository's tests, for evaluating the engine on explicit inputs. -/

/-- A one-count header definition with the un-anchored pattern `Header`. -/
def fixHeaderDef : LineDefinition := { pattern := ⟨rstr "Header", false⟩ }

/-- An unlimited body definition with the un-anchored pattern `Body`. -/
def fixBodyUnlimitedDef : LineDefinition :=
  { pattern := ⟨rstr "Body", false⟩, count := -1 }

/-- The class `⟨Header, Body×∞⟩` as produced by `__init_subclass__`
(its `END_PATTERN` is defaulted to the blank-line regex). -/
def fixUCls : SectionClass :=
  (initSubclass "USection" [fixHeaderDef, fixBodyUnlimitedDef] none
    ).toOption.getD ⟨"", [], none⟩

/-- The `USection` instance after opening on `Header` at line 5. -/
def fixUs0 : SectionState :=
  (sectionOpen fixUCls (Line.make 5 "Header")).toOption.getD
    ⟨fixUCls, 0, none, Line.make 0 "", [], []⟩

/-- The `USection` instance after additionally consuming `Body x` at
line 6: all definitions satisfied, section not yet completed. -/
def fixUs1 : SectionState := (consumeLine fixUs0 (Line.make 6 "Body x")).1

/-- The blank line at index 7. -/
def fixBlank7 : Line := Line.make 7 ""

/-- The test-suite `SectionMock` class: `Header`, a blank line, then
`Body` twice; no declared `END_PATTERN` (none is defaulted, the last
count is finite). -/
def fixMockCls : SectionClass :=
  (initSubclass "SectionMock"
    [fixHeaderDef, { pattern := reSeparatorPattern },
     { pattern := ⟨rstr "Body", false⟩, count := 2 }] none
    ).toOption.getD ⟨"", [], none⟩

/-- `SectionMock` opened on `Header` at line 0. -/
def fixMock0 : SectionState :=
  (sectionOpen fixMockCls (Line.make 0 "Header")).toOption.getD
    ⟨fixMockCls, 0, none, Line.make 0 "", [], []⟩

/-- `SectionMock` after additionally consuming the blank line at index
1: it now expects only `Body`. -/
def fixMock1 : SectionState := (consumeLine fixMock0 (Line.make 1 "")).1

/-- A one-definition class whose header pattern is the un-anchored
`Body`. -/
def fixBodyCls : SectionClass :=
  (initSubclass "BodySection" [{ pattern := ⟨rstr "Body", false⟩ }] none
    ).toOption.getD ⟨"", [], none⟩

/-! ### Correctness of the prefix matcher -/

theorem rePyMatch_iff_rmatch (r : Rgx) (s : List Char) :
    rePyMatch r s = true ↔ ∃ p, p <+: s ∧ r.rmatch p = true := by
  induction s generalizing r with
  | nil =>
    simp only [rePyMatch]
    constructor
    · intro h
      exact ⟨[], List.nil_prefix, h⟩
    · rintro ⟨p, hp, hm⟩
      rw [List.prefix_nil.mp hp] at hm
      exact hm
  | cons c cs ih =>
    simp only [rePyMatch, Bool.or_eq_true]
    rw [ih]
    constructor
    · rintro (h | ⟨p, hp, hm⟩)
      · exact ⟨[], List.nil_prefix, h⟩
      · exact ⟨c :: p, List.cons_prefix_cons.mpr ⟨rfl, hp⟩, hm⟩
    · rintro ⟨p, hp, hm⟩
      cases p with
      | nil => exact Or.inl hm
      | cons d p' =>
        obtain ⟨hd, hp'⟩ := List.cons_prefix_cons.mp hp
        subst hd
        exact Or.inr ⟨p', hp', hm⟩

theorem rePyMatch_iff (r : Rgx) (s : List Char) :
    rePyMatch r s = true ↔ ∃ p, p <+: s ∧ p ∈ r.matches' := by
  rw [rePyMatch_iff_rmatch]
  constructor
  · rintro ⟨p, hp, hm⟩
    exact ⟨p, hp, (rmatch_iff_matches' r p).mp hm⟩
  · rintro ⟨p, hp, hm⟩
    exact ⟨p, hp, (rmatch_iff_matches' r p).mpr hm⟩

/-- For a subject without a trailing newline, matching an end-anchored
pattern is exactly a full match of its inner regex. -/
theorem reMatch_anchored_of_no_newline (r : Rgx) (s : List Char)
    (h : s.getLast? ≠ some '\n') : reMatch ⟨r, true⟩ s = r.rmatch s := by
  simp [reMatch, h]

/-! ### C9 — atomicity of `consume_line` on failure -/

/-- C9: if `consume_line` raises (already completed, or no expected
definition matches), the section state returned alongside the error is
exactly the state before the call: every raise in the source happens
before any mutation. -/
theorem consumeLine_error_preserves_state (s : SectionState) (line : Line)
    (s' : SectionState) (e : SectionError)
    (h : consumeLine s line = (s', some e)) : s' = s := by
  unfold consumeLine at h
  split at h
  · exact (congrArg Prod.fst h).symm
  · split at h
    · simpa using congrArg Prod.snd h
    · split at h
      · exact (congrArg Prod.fst h).symm
      · simp only [] at h
        split at h
        · simpa using congrArg Prod.snd h
        · simpa using congrArg Prod.snd h

/-- Witness for C9: the completed fixture section rejects a further line
and is returned unchanged. -/
theorem consumeLine_error_preserves_state_witness :
    (consumeLine (onCompleteSection fixUs1 fixBlank7) fixBlank7).1 =
      onCompleteSection fixUs1 fixBlank7 :=
  consumeLine_error_preserves_state (onCompleteSection fixUs1 fixBlank7)
    fixBlank7 _ (SectionError.alreadyCompleted "USection") rfl

/-! ### C5 — END_PATTERN completion does not consume the line -/

/-- C5: when a section completes by matching its `END_PATTERN` (all
line-definitions satisfied and the current line matching it), the
terminating line is not consumed: `last_consumed_line` is unchanged,
`ending_line_index` is the prior `last_consumed_line.index`, and
`number_of_lines` counts only lines up to the prior
`last_consumed_line`. -/
theorem consumeLine_endPattern_nonconsuming (s : SectionState) (line : Line)
    (p : Pattern) (hc : s.completed = false)
    (hp : s.cls.endPattern = some p) (hall : hasConsumedAll s = true)
    (hm : reMatch p line.text.toList = true) :
    (consumeLine s line).2 = none ∧
    (consumeLine s line).1.lastConsumedLine = s.lastConsumedLine ∧
    (consumeLine s line).1.endingLineIndex =
      some s.lastConsumedLine.index ∧
    (consumeLine s line).1.numberOfLines =
      s.lastConsumedLine.index - s.startingLineIndex + 1 := by
  have hme : matchEndPattern s line = true := by
    unfold matchEndPattern
    rw [hall, hp]
    simpa using hm
  have hcl : consumeLine s line =
      (onCompleteSection s s.lastConsumedLine, none) := by
    unfold consumeLine
    rw [hc, hp]
    simp [hme]
  rw [hcl]
  exact ⟨rfl, rfl, rfl, rfl⟩

/-- Witness for C5: the fixture section with all definitions satisfied
completes on the blank line; the blank line is not consumed, the ending
index is the prior last consumed index 6, and two lines are counted. -/
theorem consumeLine_endPattern_nonconsuming_witness :
    (consumeLine fixUs1 fixBlank7).2 = none ∧
    (consumeLine fixUs1 fixBlank7).1.lastConsumedLine =
      fixUs1.lastConsumedLine ∧
    (consumeLine fixUs1 fixBlank7).1.endingLineIndex =
      some fixUs1.lastConsumedLine.index ∧
    (consumeLine fixUs1 fixBlank7).1.numberOfLines =
      fixUs1.lastConsumedLine.index - fixUs1.startingLineIndex + 1 :=
  consumeLine_endPattern_nonconsuming fixUs1 fixBlank7 reSeparatorPattern
    rfl rfl rfl rfl

/-! ### C7 — END_PATTERN defaulting in `__init_subclass__` -/

/-- Case analysis of the `END_PATTERN` defaulting step. -/
theorem defaultedEndPattern_spec (last : LineDefinition)
    (declared : Option Pattern) :
    (last.count = -1 ∧ reMatch last.pattern SEPARATOR_RAW.toList = false →
      defaultedEndPattern last declared = some reSeparatorPattern) ∧
    (¬(last.count = -1 ∧
        reMatch last.pattern SEPARATOR_RAW.toList = false) →
      defaultedEndPattern last declared = declared) := by
  constructor
  · intro ⟨h1, h2⟩
    have hc : (last.count == -1 &&
        !(reMatch last.pattern SEPARATOR_RAW.toList)) = true := by
      rw [h2, h1]
      rfl
    unfold defaultedEndPattern
    rw [hc]
    rfl
  · intro hn
    have hc : (last.count == -1 &&
        !(reMatch last.pattern SEPARATOR_RAW.toList)) = false := by
      by_cases h1 : last.count = -1
      · by_cases h2 : reMatch last.pattern SEPARATOR_RAW.toList = true
        · rw [h2]
          simp
        · exact absurd ⟨h1, by simpa using h2⟩ hn
      · have h1' : (last.count == -1) = false := by simpa using h1
        rw [h1']
        rfl
    unfold defaultedEndPattern
    rw [hc]
    rfl

/-- Successful construction yields the defaulted `END_PATTERN`. -/
theorem initSubclass_endPattern_eq (name : String)
    (defs : List LineDefinition) (declared : Option Pattern)
    (cls : SectionClass)
    (h : initSubclass name defs declared = .ok cls) :
    cls.endPattern = defaultedEndPattern (defs.getLastD default)
      declared := by
  unfold initSubclass at h
  split at h
  · exact absurd h (by simp)
  · split at h
    · exact absurd h (by simp)
    · split at h
      · exact absurd h (by simp)
      · split at h
        · exact absurd h (by simp)
        · split at h
          · exact absurd h (by simp)
          · simp only [] at h
            split at h
            · exact absurd h (by simp)
            · injection h with h
              subst h
              rfl

/-- C7: after class construction, a concrete subclass whose last
line-definition is unlimited and whose pattern does not match the raw
blank line has `END_PATTERN` defaulted to the blank-line regex; every
other concrete subclass keeps its declared `END_PATTERN`. -/
theorem initSubclass_endPattern_default (name : String)
    (defs : List LineDefinition) (declared : Option Pattern)
    (cls : SectionClass)
    (h : initSubclass name defs declared = .ok cls) :
    ((defs.getLastD default).count = -1 ∧
        reMatch (defs.getLastD default).pattern SEPARATOR_RAW.toList =
          false →
      cls.endPattern = some reSeparatorPattern) ∧
    (¬((defs.getLastD default).count = -1 ∧
        reMatch (defs.getLastD default).pattern SEPARATOR_RAW.toList =
          false) →
      cls.endPattern = declared) := by
  rw [initSubclass_endPattern_eq name defs declared cls h]
  exact defaultedEndPattern_spec (defs.getLastD default) declared

/-- Witness for C7: the fixture class declares no `END_PATTERN`, its
last definition is unlimited and its pattern `Body` does not match the
raw blank line, so construction defaults `END_PATTERN` to the blank-line
regex. -/
theorem initSubclass_endPattern_default_witness :
    fixUCls.endPattern = some reSeparatorPattern :=
  (initSubclass_endPattern_default "USection"
    [fixHeaderDef, fixBodyUnlimitedDef] none fixUCls rfl).1 ⟨rfl, rfl⟩

/-! ### C8 — failure modes of `consume_line`

The claim states that a non-completed section raises whenever no
currently expected definition matches the line.  That is not what the
source does: when `END_PATTERN` is set, all definitions are satisfied
and the line matches `END_PATTERN`, `consume_line` completes the section
without raising even though no expected definition matches the line. -/

/-- Counterexample to C8 as stated: the fixture section is not
completed, none of its expected definitions' patterns matches the blank
line, yet `consume_line` does not raise (the section completes through
its `END_PATTERN`). -/
theorem consumeLine_unmatched_no_raise_counterexample :
    fixUs1.completed = false ∧
    (fixUs1.expectedDefinitions.all fun i =>
      !(reMatch (defAt fixUs1 i).pattern fixBlank7.text.toList)) = true ∧
    (consumeLine fixUs1 fixBlank7).2 = none :=
  ⟨rfl, rfl, rfl⟩

/-- C8 as amended: a completed section rejects every further line with
the already-completed error; a non-completed section whose line does not
complete it through `END_PATTERN` and matches no currently expected
definition raises an error carrying the offending line, the last
consumed line and the full list of expected definitions' patterns. -/
theorem consumeLine_failure_modes (s : SectionState) (line : Line) :
    (s.completed = true →
      consumeLine s line = (s, some (.alreadyCompleted s.name))) ∧
    (s.completed = false →
      (s.cls.endPattern.isSome && matchEndPattern s line) = false →
      (∀ i ∈ s.expectedDefinitions,
        reMatch (defAt s i).pattern line.text.toList = false) →
      consumeLine s line = (s, some (.invalidLine s.name line
        s.lastConsumedLine
        (s.expectedDefinitions.map fun i => (defAt s i).pattern)))) := by
  constructor
  · intro hc
    unfold consumeLine
    rw [hc]
    rfl
  · intro hc hep hnm
    have hfind : findMatch s line = none := by
      unfold findMatch
      rw [List.find?_eq_none]
      intro i hi
      exact fun hcontra => Bool.false_ne_true
        ((hnm i hi).symm.trans hcontra)
    unfold consumeLine
    rw [hc, hep, hfind]
    rfl

/-- Witness for the amended C8, at the two concrete fixture states: the
completed section rejects the blank line; the `SectionMock` instance
that expects only `Body` rejects the line `Nope` with the full
diagnostic payload. -/
theorem consumeLine_failure_modes_witness :
    consumeLine (onCompleteSection fixUs1 fixBlank7) fixBlank7 =
      (onCompleteSection fixUs1 fixBlank7,
        some (.alreadyCompleted (onCompleteSection fixUs1 fixBlank7).name)) ∧
    consumeLine fixMock1 (Line.make 2 "Nope") =
      (fixMock1, some (.invalidLine fixMock1.name (Line.make 2 "Nope")
        fixMock1.lastConsumedLine
        (fixMock1.expectedDefinitions.map fun i =>
          (defAt fixMock1 i).pattern))) :=
  ⟨(consumeLine_failure_modes (onCompleteSection fixUs1 fixBlank7)
      fixBlank7).1 rfl,
   (consumeLine_failure_modes fixMock1 (Line.make 2 "Nope")).2 rfl rfl
     (by decide)⟩

/-! ### C10 — matching is prefix matching -/

/-- C10: the engine's line matcher has `re.match` prefix semantics: an
un-anchored pattern matches a line exactly when some prefix of the line
text belongs to the pattern's language, so a pattern that matches a
string also matches it with arbitrary trailing content, and a concrete
section whose header pattern is `Body` opens on the line
`BodySection`. -/
theorem lineMatching_is_prefix_matching :
    (∀ (r : Rgx) (s : List Char),
      rePyMatch r s = true ↔ ∃ p, p <+: s ∧ p ∈ r.matches') ∧
    (∀ (r : Rgx) (s t : List Char),
      r.rmatch s = true → rePyMatch r (s ++ t) = true) ∧
    (sectionOpen fixBodyCls (Line.make 0 "BodySection")).toOption.isSome
      = true := by
  refine ⟨rePyMatch_iff, ?_, rfl⟩
  intro r s t h
  exact (rePyMatch_iff_rmatch r (s ++ t)).mpr ⟨s, List.prefix_append s t, h⟩

/-- Witness for C10: the pattern `Body` fully matches `Body`, hence
prefix-matches `BodySection`. -/
theorem lineMatching_is_prefix_matching_witness :
    rePyMatch (rstr "Body") ("Body".toList ++ "Section".toList) = true :=
  lineMatching_is_prefix_matching.2.1 (rstr "Body") "Body".toList
    "Section".toList rfl

/-! ### C2 — the tags-line grammar

The claim states the grammar of the spec, which allows several
comma-separated tags inside one bracket group and only lowercase tags.
The source pattern `RE_TAGS_PATTERN` allows exactly one tag per bracket
group (no commas) and lets the trailing segment of an underscored tag
contain uppercase letters, so the two grammars disagree in both
directions. -/

/-- Counterexample to C2 as stated: the line with a comma-separated
group belongs to the grammar the claim states but is rejected by
`File.match`; the line with an uppercase trailing segment is accepted by
`File.match` but is outside the claimed grammar. -/
theorem checkTagsLine_spec_grammar_counterexample :
    checkTagsLine "`[ab, cd]`" = some (.invalidTags "`[ab, cd]`") ∧
    "`[ab, cd]`".toList ∈ specTagsRgx.matches' ∧
    checkTagsLine "`[ab_Cd]`" = none ∧
    "`[ab_Cd]`".toList ∉ specTagsRgx.matches' :=
  ⟨rfl, (rmatch_iff_matches' _ _).mp (by decide), rfl,
   fun hm => Bool.false_ne_true
     ((by decide : specTagsRgx.rmatch "`[ab_Cd]`".toList = false).symm.trans
       ((rmatch_iff_matches' _ _).mpr hm))⟩

/-- C2 as amended: `File.match` accepts a second line as a tags line
exactly when the line belongs to the language of the source pattern — a
backtick, one or more bracket groups each holding exactly one tag of
shape `(?:[a-z]+_)+[a-zA-Z]+` or `[a-z]+`, and a closing backtick — and
raises the invalid-tags error for every other line. -/
theorem checkTagsLine_accepts_iff (s : String) (h : '\n' ∉ s.toList) :
    checkTagsLine s = none ↔ s.toList ∈ reTagsRgx.matches' := by
  have hne : s.toList.getLast? ≠ some '\n' := by
    intro hl
    obtain ⟨hnil, heq⟩ :=
      List.mem_getLast?_eq_getLast (Option.mem_def.mpr hl)
    have hmem := List.getLast_mem hnil
    rw [← heq] at hmem
    exact h hmem
  unfold checkTagsLine
  rw [show reMatch reTagsPattern s.toList = reTagsRgx.rmatch s.toList from
    reMatch_anchored_of_no_newline reTagsRgx s.toList hne]
  by_cases hr : reTagsRgx.rmatch s.toList = true
  · rw [if_pos hr]
    exact iff_of_true rfl ((rmatch_iff_matches' _ _).mp hr)
  · rw [if_neg hr]
    exact iff_of_false (by simp) fun hm =>
      hr ((rmatch_iff_matches' _ _).mpr hm)

/-- Witness for the amended C2: the seed tags line `[spanish_file]` in
backticks has no newline and is accepted, so it belongs to the source
grammar. -/
theorem checkTagsLine_accepts_iff_witness :
    '\n' ∉ "`[spanish_file]`".toList ∧
    "`[spanish_file]`".toList ∈ reTagsRgx.matches' :=
  ⟨by decide, (checkTagsLine_accepts_iff "`[spanish_file]`" (by decide)).mp
    rfl⟩

/-! ### Sorting lemmas for the priority order -/

theorem mem_insertByPriority {z x : List Nat × SDTree}
    {l : List (List Nat × SDTree)} :
    z ∈ insertByPriority x l ↔ z = x ∨ z ∈ l := by
  induction l with
  | nil => simp [insertByPriority]
  | cons y ys ih =>
    unfold insertByPriority
    by_cases h : prioOf x < prioOf y
    · rw [if_pos h]
      simp only [List.mem_cons, ih]
      tauto
    · rw [if_neg h]
      simp only [List.mem_cons]

theorem insertByPriority_sorted (x : List Nat × SDTree)
    (l : List (List Nat × SDTree))
    (h : l.Pairwise fun a b => prioOf b ≤ prioOf a) :
    (insertByPriority x l).Pairwise
      (fun a b => prioOf b ≤ prioOf a) := by
  induction l with
  | nil => simp [insertByPriority]
  | cons y ys ih =>
    rcases List.pairwise_cons.mp h with ⟨hy, hys⟩
    unfold insertByPriority
    by_cases hxy : prioOf x < prioOf y
    · rw [if_pos hxy]
      refine List.pairwise_cons.mpr ⟨?_, ih hys⟩
      intro z hz
      rcases mem_insertByPriority.mp hz with hzx | hzys
      · rw [hzx]
        exact Nat.le_of_lt hxy
      · exact hy z hzys
    · rw [if_neg hxy]
      have hyx : prioOf y ≤ prioOf x := Nat.le_of_not_lt hxy
      refine List.pairwise_cons.mpr ⟨?_, h⟩
      intro z hz
      rcases List.mem_cons.mp hz with hzy | hzys
      · rw [hzy]
        exact hyx
      · exact Nat.le_trans (hy z hzys) hyx

theorem sortByPriorityDesc_sorted (l : List (List Nat × SDTree)) :
    (sortByPriorityDesc l).Pairwise
      (fun a b => prioOf b ≤ prioOf a) := by
  induction l with
  | nil => simp [sortByPriorityDesc]
  | cons x xs ih => exact insertByPriority_sorted x _ ih

theorem insertByPriority_filter (x : List Nat × SDTree)
    (l : List (List Nat × SDTree)) (pr : Nat) :
    (insertByPriority x l).filter (fun y => prioOf y == pr) =
      (if prioOf x == pr then [x] else []) ++
        l.filter (fun y => prioOf y == pr) := by
  induction l with
  | nil =>
    by_cases hx : (prioOf x == pr) = true <;>
      simp [insertByPriority, List.filter, hx]
  | cons y ys ih =>
    unfold insertByPriority
    by_cases hxy : prioOf x < prioOf y
    · rw [if_pos hxy, List.filter_cons, ih]
      by_cases hy : (prioOf y == pr) = true
      · have hx : (prioOf x == pr) = false := by
          have : prioOf y = pr := by simpa using hy
          have hlt : prioOf x < pr := this ▸ hxy
          simp [Nat.ne_of_lt hlt]
        rw [hx] at *
        simp [hy, hx]
      · have hy' : (prioOf y == pr) = false := by simpa using hy
        simp [hy']
    · rw [if_neg hxy, List.filter_cons]
      by_cases hx : (prioOf x == pr) = true <;> simp [hx]

theorem sortByPriorityDesc_filter (l : List (List Nat × SDTree))
    (pr : Nat) :
    (sortByPriorityDesc l).filter (fun y => prioOf y == pr) =
      l.filter (fun y => prioOf y == pr) := by
  induction l with
  | nil => rfl
  | cons x xs ih =>
    unfold sortByPriorityDesc
    rw [insertByPriority_filter, ih, List.filter_cons]
    by_cases hx : (prioOf x == pr) = true <;> simp [hx]

/-- The first candidate whose section constructs wins, and in a
priority-sorted candidate list it has maximal priority among all
candidates that can construct on the line. -/
theorem matchDefinition_first_max (expected : List (List Nat × SDTree))
    (line : Line)
    (hs : expected.Pairwise fun a b => prioOf b ≤ prioOf a)
    (p : List Nat) (t : SDTree) (s : SectionState)
    (errs : List SectionError)
    (hm : matchDefinition expected line = (some (p, t, s), errs)) :
    ∀ q u, (q, u) ∈ expected →
      (sectionOpen u.cls line).toOption.isSome = true →
      prioOf (q, u) ≤ prioOf (p, t) := by
  induction expected generalizing errs with
  | nil => simp [matchDefinition] at hm
  | cons hd rest ih =>
    obtain ⟨p0, t0⟩ := hd
    rcases List.pairwise_cons.mp hs with ⟨hhd, hrest⟩
    unfold matchDefinition at hm
    cases hopen : sectionOpen t0.cls line with
    | ok s0 =>
      rw [hopen] at hm
      have h1 : some (p0, t0, s0) = some (p, t, s) := congrArg Prod.fst hm
      have h2 : (p0, t0, s0) = (p, t, s) := Option.some.injEq .. ▸ h1
      have hp0 : p0 = p := congrArg Prod.fst h2
      have ht0 : t0 = t := congrArg (fun z => z.2.1) h2
      intro q u hqu _
      rcases List.mem_cons.mp hqu with he | hm2
      · rw [he, ← hp0, ← ht0]
      · have := hhd (q, u) hm2
        rw [← hp0, ← ht0]
        exact this
    | error e =>
      rw [hopen] at hm
      simp only [] at hm
      have h1 : (matchDefinition rest line).1 = some (p, t, s) :=
        congrArg Prod.fst hm
      have hm' : matchDefinition rest line =
          (some (p, t, s), (matchDefinition rest line).2) := by
        rw [← h1]
      intro q u hqu hsucc
      rcases List.mem_cons.mp hqu with he | hm2
      · exfalso
        have : (q, u) = (p0, t0) := he
        have hu : u = t0 := congrArg Prod.snd this
        rw [hu, hopen] at hsucc
        simp [Except.toOption] at hsucc
      · exact ih hrest (matchDefinition rest line).2 hm' q u hm2 hsucc

/-! ### C3 — priority ordering of the expected-definition list -/

/-- C3: the file-level expected-definitions list is sorted by priority
descending (HIGHER first, INTERRUPTING last); within equal priority the
grammar-traversal order is preserved (filtering the sorted list and the
unsorted traversal to any one priority yields the same sublist); and
when candidates are tried in that order, the first successful
construction has maximal priority among all candidates whose section
constructs on the line. -/
theorem selectExpected_priority_order (g : List SDTree)
    (counts : PathCounts) (path : List Nat) (up : Bool) (line : Line) :
    (selectExpectedFile g counts path up).Pairwise
      (fun a b => prioOf b ≤ prioOf a) ∧
    (∀ pr : Nat,
      (selectExpectedFile g counts path up).filter
          (fun y => prioOf y == pr) =
        (selectExpectedFileRaw g counts path up).filter
          (fun y => prioOf y == pr)) ∧
    (∀ p t s errs,
      matchDefinition (selectExpectedFile g counts path up) line =
        (some (p, t, s), errs) →
      ∀ q u, (q, u) ∈ selectExpectedFile g counts path up →
        (sectionOpen u.cls line).toOption.isSome = true →
        prioOf (q, u) ≤ prioOf (p, t)) := by
  refine ⟨sortByPriorityDesc_sorted _,
    fun pr => sortByPriorityDesc_filter _ pr, ?_⟩
  intro p t s errs hm
  exact matchDefinition_first_max _ line (sortByPriorityDesc_sorted _)
    p t s errs hm

/-- Witness for C3: in the two-candidate grammar where the optional
repeatable generic definition (DEFAULT priority) and the HIGHER-priority
specific definition both match `# Specific`, the specific one is opened,
and the generic candidate's priority is bounded by it. -/
theorem selectExpected_priority_order_witness :
    prioOf (([0] : List Nat), gfixGenericNode) ≤
      prioOf (([1] : List Nat), gfixSpecificNode) :=
  (selectExpected_priority_order gfixPrio [] [0] false fixPrioLine).2.2
    [1] gfixSpecificNode
    ((sectionOpen gfixSpecificNode.cls fixPrioLine).toOption.getD
      ⟨⟨"", [], none⟩, 0, none, Line.make 0 "", [], []⟩)
    [] rfl [0] gfixGenericNode
    (by
      show _ ∈ [(([1] : List Nat), gfixSpecificNode),
        (([0] : List Nat), gfixGenericNode)]
      exact List.mem_cons_of_mem _ (List.mem_cons_self _ _))
    rfl

/-! ### C6 — the consumed / can-consume-more predicates -/

/-- C6: at both levels, a definition with counter `n` is consumed
exactly when it is optional with `n = 0`, or unlimited with `n > 0`, or
`n` equals its count; and it can consume more exactly when it is
unlimited or `n` is below its count.  The section-level and file-level
matchers decide the predicates identically. -/
theorem consumed_predicates (d : LineDefinition) (a : SDefAttrs)
    (counts : PathCounts) (path : List Nat) (n : Nat) :
    (isDefinitionConsumed d n = true ↔
      (d.optional = true ∧ n = 0) ∨ (d.count = -1 ∧ 0 < n) ∨
        d.count = (n : Int)) ∧
    (canDefinitionConsumeMore d n = true ↔
      (d.count = -1 ∨ (n : Int) < d.count)) ∧
    (getPathCount counts path = n →
      ((fileIsDefinitionConsumed counts path a = true ↔
        (a.optional = true ∧ n = 0) ∨ (a.count = -1 ∧ 0 < n) ∨
          a.count = (n : Int)) ∧
       (fileCanDefinitionConsumeMore counts path a = true ↔
        (a.count = -1 ∨ (n : Int) < a.count)))) := by
  refine ⟨?_, ?_, ?_⟩
  · unfold isDefinitionConsumed
    by_cases h : (d.optional && n == 0) = true
    · rw [if_pos h]
      have h' : d.optional = true ∧ n = 0 := by simpa using h
      exact iff_of_true rfl (Or.inl h')
    · rw [if_neg h]
      rw [decide_eq_true_iff]
      constructor
      · exact Or.inr
      · rintro (⟨h1, h2⟩ | hbc)
        · exact absurd (by simp [h1, h2]) h
        · exact hbc
  · unfold canDefinitionConsumeMore
    by_cases h : d.count = -1
    · rw [if_pos h]
      exact iff_of_true rfl (Or.inl h)
    · rw [if_neg h]
      rw [decide_eq_true_iff]
      constructor
      · exact Or.inr
      · rintro (h1 | h2)
        · exact absurd h1 h
        · exact h2
  · intro hn
    constructor
    · unfold fileIsDefinitionConsumed
      simp only []
      rw [hn]
      by_cases h : (a.optional && n == 0) = true
      · rw [if_pos h]
        have h' : a.optional = true ∧ n = 0 := by simpa using h
        exact iff_of_true rfl (Or.inl h')
      · rw [if_neg h]
        rw [decide_eq_true_iff]
        constructor
        · exact Or.inr
        · rintro (⟨h1, h2⟩ | hbc)
          · exact absurd (by simp [h1, h2]) h
          · exact hbc
    · unfold fileCanDefinitionConsumeMore
      by_cases h : a.count = -1
      · rw [if_pos h]
        exact iff_of_true rfl (Or.inl h)
      · rw [if_neg h]
        rw [hn, decide_eq_true_iff]
        constructor
        · exact Or.inr
        · rintro (h1 | h2)
          · exact absurd h1 h
          · exact h2

/-- Witness for C6 at a concrete definition and empty counters: an
unlimited optional definition with zero matches is consumed and can
consume more, at both levels. -/
theorem consumed_predicates_witness :
    isDefinitionConsumed fixOptUnlimitedDef 0 = true ∧
    fileCanDefinitionConsumeMore [] [] fixOptUnlimitedAttrs = true :=
  ⟨((consumed_predicates fixOptUnlimitedDef fixOptUnlimitedAttrs
      [] [] 0).1).mpr (Or.inl ⟨rfl, rfl⟩),
   ((consumed_predicates fixOptUnlimitedDef fixOptUnlimitedAttrs
      [] [] 0).2.2 rfl).2.mpr (Or.inl rfl)⟩

/-! ### C1 — separator validation

The claim reads the check as counting the blank lines between the
previous section's last line and the new section's start, with a zero
`separator_count` requiring zero blanks.  The source only looks at the
`separator_count` raw lines immediately before the new section's start
and demands that this slice be non-empty and all blank, so a zero
`separator_count` always fails. -/

/-- An empty Python slice. -/
theorem pySlice_same (l : List String) (a : Int) : pySlice l a a = [] := by
  unfold pySlice
  simp

/-- Counterexample to C1 as stated: a transition to line 1 with
`separator_count = 0`, zero blank lines in between and a non-blank line
before satisfies the claim's separator condition, yet the source raises
the invalid-separator-count error. -/
theorem validateSeparators_zero_counterexample :
    specSeparatorOk ["x\n", "y\n"] 0 1 0 ∧
    validateSeparators "ExampleFile" "FooterSection" 1 0 ["x\n", "y\n"] =
      some (.invalidSeparatorCount "ExampleFile" "FooterSection" 1) := by
  refine ⟨⟨by norm_num, ?_, by decide⟩, rfl⟩
  intro j h1 h2
  omega

/-- C1 as amended: separator validation never succeeds with
`separator_count = 0`; and for `1 ≤ separator_count ≤ starting line ≤
document length` it succeeds exactly when the `separator_count` raw
lines immediately before the new section's starting line are all blank
and the raw line just before them is not blank, where — Python
indexing — the line just before a run starting at line 0 is the last
raw line of the file. -/
theorem validateSeparators_amended :
    (∀ (name secName : String) (startIdx : Nat) (rawLines : List String),
      validateSeparators name secName startIdx 0 rawLines =
        some (.invalidSeparatorCount name secName startIdx)) ∧
    (∀ (name secName : String) (startIdx k : Nat)
        (rawLines : List String),
      1 ≤ k → k ≤ startIdx → startIdx ≤ rawLines.length →
      (validateSeparators name secName startIdx (k : Int) rawLines =
          none ↔
        ((rawLines.drop (startIdx - k)).take k =
            List.replicate k SEPARATOR_RAW ∧
          (if k < startIdx then rawLines.getD (startIdx - k - 1) ""
           else rawLines.getD (rawLines.length - 1) "") ≠
            SEPARATOR_RAW))) := by
  constructor
  · intro name secName startIdx rawLines
    unfold validateSeparators
    simp only [Int.sub_zero]
    rw [pySlice_same]
    rfl
  · intro name secName startIdx k rawLines hk hle hlen
    have hsb1 : pySliceBound rawLines.length
        ((startIdx : Int) - (k : Int)) = startIdx - k := by
      unfold pySliceBound
      split_ifs with h1
      · omega
      · omega
    have hsb2 : pySliceBound rawLines.length (startIdx : Int) =
        startIdx := by
      unfold pySliceBound
      split_ifs with h1
      · omega
      · omega
    have hgap : pySlice rawLines ((startIdx : Int) - (k : Int))
        (startIdx : Int) = (rawLines.drop (startIdx - k)).take k := by
      unfold pySlice
      simp only []
      rw [hsb1, hsb2]
      congr 1
      omega
    have hlenGap : ((rawLines.drop (startIdx - k)).take k).length = k := by
      rw [List.length_take, List.length_drop]
      omega
    have hne : ((rawLines.drop (startIdx - k)).take k).isEmpty =
        false := by
      rcases hgl : (rawLines.drop (startIdx - k)).take k with _ | ⟨x, xs⟩
      · rw [hgl] at hlenGap
        simp at hlenGap
        omega
      · rfl
    have hget : pyGet rawLines ((startIdx : Int) - (k : Int) - 1) =
        some (if k < startIdx then rawLines.getD (startIdx - k - 1) ""
          else rawLines.getD (rawLines.length - 1) "") := by
      by_cases hcase : k < startIdx
      · rw [if_pos hcase]
        have hlt2 : startIdx - k - 1 < rawLines.length := by omega
        unfold pyGet
        rw [if_pos (by omega)]
        have hidx : ((startIdx : Int) - (k : Int) - 1).toNat =
            startIdx - k - 1 := by omega
        rw [hidx]
        rw [List.getD_eq_getElem rawLines "" hlt2]
        rw [List.get?_eq_getElem?, List.getElem?_eq_getElem hlt2]
      · rw [if_neg hcase]
        have hlt3 : rawLines.length - 1 < rawLines.length := by omega
        unfold pyGet
        rw [if_neg (by omega), if_pos (by omega)]
        have hidx : ((rawLines.length : Int) +
            ((startIdx : Int) - (k : Int) - 1)).toNat =
            rawLines.length - 1 := by omega
        rw [hidx]
        rw [List.getD_eq_getElem rawLines "" hlt3]
        rw [List.get?_eq_getElem?, List.getElem?_eq_getElem hlt3]
    unfold validateSeparators
    simp only []
    rw [hgap, hne, hget]
    simp only [Bool.false_or]
    generalize (if k < startIdx then rawLines.getD (startIdx - k - 1) ""
      else rawLines.getD (rawLines.length - 1) "") = before
    by_cases hany : (((rawLines.drop (startIdx - k)).take k).any
        (fun s => !(s == SEPARATOR_RAW))) = true
    · rw [if_pos hany]
      refine iff_of_false (by simp) ?_
      rintro ⟨hrep, _⟩
      rw [hrep] at hany
      rcases List.any_eq_true.mp hany with ⟨x, hx, hpx⟩
      have hxv : x = SEPARATOR_RAW := List.eq_of_mem_replicate hx
      rw [hxv] at hpx
      simp at hpx
    · have hany' : (((rawLines.drop (startIdx - k)).take k).any
          (fun s => !(s == SEPARATOR_RAW))) = false := by
        simpa using hany
      rw [if_neg hany]
      by_cases hv : (before == SEPARATOR_RAW) = true
      · rw [if_pos hv]
        refine iff_of_false (by simp) ?_
        rintro ⟨_, hnb⟩
        exact hnb (by simpa using hv)
      · rw [if_neg hv]
        refine iff_of_true rfl ⟨?_, fun h => hv (by
          rw [h]
          exact beq_self_eq_true _)⟩
        refine List.eq_replicate_iff.mpr ⟨hlenGap, ?_⟩
        intro b hb
        have := List.any_eq_false.mp hany' b hb
        simpa using this

/-- Witness for the amended C1: a zero separator count fails on a
two-line document; one blank line before the new section with a
non-blank line before it validates; and a blank run starting at line 0
validates when the last raw line of the file is not blank (the wrapped
`raw_lines[-1]` read). -/
theorem validateSeparators_amended_witness :
    validateSeparators "F" "S" 1 0 ["x\n", "y\n"] =
      some (.invalidSeparatorCount "F" "S" 1) ∧
    validateSeparators "F" "S" 2 (1 : Nat) ["a\n", "\n", "b\n"] =
      none ∧
    validateSeparators "F" "S" 1 (1 : Nat) ["\n", "b"] = none :=
  ⟨validateSeparators_amended.1 "F" "S" 1 ["x\n", "y\n"],
   (validateSeparators_amended.2 "F" "S" 2 1 ["a\n", "\n", "b\n"]
      (by decide) (by decide) (by decide)).mpr ⟨rfl, by decide⟩,
   (validateSeparators_amended.2 "F" "S" 1 1 ["\n", "b"]
      (by decide) (by decide) (by decide)).mpr ⟨rfl, by decide⟩⟩

/-! ### C4 — INTERRUPTING candidates are suppressed -/

theorem fileUpdateCount_events (fs : FileState) (si : SectionInfo) :
    ((fileUpdateCount fs si).1).events = fs.events := by
  unfold fileUpdateCount
  split <;> rfl

theorem fileUpdateCount_defPath (fs : FileState) (si : SectionInfo) :
    ((fileUpdateCount fs si).2).defPath = si.defPath := by
  unfold fileUpdateCount
  split <;> rfl

theorem fileOnMatch_events (fs : FileState) (si : SectionInfo) :
    ((fileOnMatch fs si).1).events =
      fs.events ++
        [FEvent.sectionMatch ((fileOnMatch fs si).2).sec.name] := by
  unfold fileOnMatch
  simp only []
  rw [fileUpdateCount_events]

theorem fileOnMatch_defPath (fs : FileState) (si : SectionInfo) :
    ((fileOnMatch fs si).2).defPath = si.defPath := by
  unfold fileOnMatch
  simp only []
  exact fileUpdateCount_defPath fs si

theorem finishConsume_events (fs : FileState) (si : SectionInfo) :
    ∀ ev ∈ (finishConsume fs si).1.events,
      ev ∈ fs.events ∨ ∃ nm, ev = FEvent.sectionMatch nm := by
  unfold finishConsume
  simp only []
  split
  · intro ev hev
    have h2 : ev ∈
        (fileOnMatch { fs with current := some si } si).1.events := hev
    rw [fileOnMatch_events] at h2
    rcases List.mem_append.mp h2 with h3 | h3
    · exact Or.inl h3
    · exact Or.inr ⟨_, List.mem_singleton.mp h3⟩
  · intro ev hev
    exact Or.inl hev

theorem finishConsume_current (fs : FileState) (si : SectionInfo) :
    ∀ si', (finishConsume fs si).1.current = some si' →
      si'.defPath = si.defPath := by
  unfold finishConsume
  simp only []
  split
  · intro si' h
    have h2 : some (fileOnMatch { fs with current := some si } si).2 =
        some si' := h
    cases h2
    exact fileOnMatch_defPath _ _
  · intro si' h
    have h2 : some si = some si' := h
    cases h2
    rfl

theorem fileUpdateExpected_events (fs : FileState)
    (mp : Option (List Nat)) :
    (fileUpdateExpected fs mp).events = fs.events := rfl

theorem consumeBranch_events (fs : FileState) (si : SectionInfo)
    (line : Line) :
    ∀ ev ∈ (consumeBranch fs si line).1.events,
      ev ∈ fs.events ∨ ∃ nm, ev = FEvent.sectionMatch nm := by
  unfold consumeBranch
  simp only []
  split
  · exact fun ev hev => Or.inl hev
  · split
    · intro ev hev
      rcases finishConsume_events _ _ ev hev with h1 | h1
      · rw [fileUpdateExpected_events, fileUpdateCount_events] at h1
        exact Or.inl h1
      · exact Or.inr h1
    · intro ev hev
      rcases finishConsume_events _ _ ev hev with h1 | h1
      · exact Or.inl h1
      · exact Or.inr h1

theorem consumeBranch_current (fs : FileState) (si : SectionInfo)
    (line : Line) :
    ∀ si', (consumeBranch fs si line).1.current = some si' →
      si'.defPath = si.defPath := by
  unfold consumeBranch
  simp only []
  split
  · intro si' h
    injection h with h2
    rw [← h2]
  · split
    · intro si' h
      have h2 := finishConsume_current _ _ si' h
      rw [fileUpdateCount_defPath] at h2
      exact h2
    · intro si' h
      have h2 := finishConsume_current _ _ si' h
      exact h2

/-- The elif chain adds no `sectionEnd` event: every event of its result
was already present or is an `on_match` notification. -/
theorem sepOrFail_events (fs : FileState) (line : Line)
    (errs : List SectionError) :
    (sepOrFail fs line errs).1.events = fs.events := by
  unfold sepOrFail
  split <;> rfl

theorem sepOrFail_current (fs : FileState) (line : Line)
    (errs : List SectionError) :
    (sepOrFail fs line errs).1.current = fs.current := by
  unfold sepOrFail
  split <;> rfl

theorem stepRest_events (fs : FileState) (line : Line)
    (errs : List SectionError) :
    ∀ ev ∈ (stepRest fs line errs).1.events,
      ev ∈ fs.events ∨ ∃ nm, ev = FEvent.sectionMatch nm := by
  unfold stepRest
  intro ev hev
  cases hcur : fs.current with
  | none =>
    simp only [hcur] at hev
    rw [sepOrFail_events] at hev
    exact Or.inl hev
  | some si =>
    simp only [hcur] at hev
    by_cases hc : (!si.sec.completed) = true
    · rw [if_pos hc] at hev
      exact consumeBranch_events fs si line ev hev
    · rw [if_neg hc, sepOrFail_events] at hev
      exact Or.inl hev

/-- The elif chain keeps the open section's definition: the current info
of its result has the same definition path. -/
theorem stepRest_current (fs : FileState) (line : Line)
    (errs : List SectionError) (si : SectionInfo)
    (hcur : fs.current = some si) :
    ∀ si', (stepRest fs line errs).1.current = some si' →
      si'.defPath = si.defPath := by
  unfold stepRest
  intro si' h
  simp only [hcur] at h
  by_cases hc : (!si.sec.completed) = true
  · rw [if_pos hc] at h
    exact consumeBranch_current fs si line si' h
  · rw [if_neg hc, sepOrFail_current, hcur] at h
    injection h with h2
    rw [← h2]

/-- C4: a line matching an INTERRUPTING-priority candidate while the
open section has not been completed is suppressed: the step behaves
exactly as if no new section had matched (the line is forwarded to the
open section or treated as a separator), no `sectionEnd` forced close is
fired, and the open section's definition stays current. -/
theorem interrupting_candidate_suppressed (fs : FileState)
    (rawLines : List String) (line : Line) (si : SectionInfo)
    (p : List Nat) (t : SDTree) (s : SectionState)
    (errs : List SectionError)
    (hcur : fs.current = some si)
    (hm : matchDefinition fs.expected line = (some (p, t, s), errs))
    (hprio : t.attrs.priority = SectionPriority.interrupting)
    (hnc : si.hasBeenCompleted = false) :
    parseStep fs rawLines line = stepRest fs line errs ∧
    (∀ ev ∈ (stepRest fs line errs).1.events,
      ev ∈ fs.events ∨ ∃ nm, ev = FEvent.sectionMatch nm) ∧
    (∀ si', (stepRest fs line errs).1.current = some si' →
      si'.defPath = si.defPath) := by
  refine ⟨?_, stepRest_events fs line errs,
    stepRest_current fs line errs si hcur⟩
  have hci : SectionInfo.canInterrupt
      { sec := s, defPath := p, defNode := t } si = false := by
    unfold SectionInfo.canInterrupt
    rw [hprio, hnc]
    rfl
  unfold parseStep
  simp only []
  rw [hm]
  simp only []
  rw [hcur]
  simp only [hci]
  rfl

/-- Witness for C4: in the interruption fixture, the line matching the
INTERRUPTING candidate is forwarded to the open overlapping section. -/
theorem interrupting_candidate_suppressed_witness :
    parseStep fixIntFs2 fixIntRaw fixIntLine =
      stepRest fixIntFs2 fixIntLine [] :=
  (interrupting_candidate_suppressed fixIntFs2 fixIntRaw fixIntLine
    fixIntSi [1] fixIntNode fixIntOpenState [] rfl rfl rfl rfl).1

end Librum
